import Mathlib

/-!
Verification of the grate tabular-data library (github.com/wubin1989/grate).

Shallow embedding of the Go sources:
* `grate.go` — the `Source`/`Collection` dispatch registry (`Open`, `Register`),
* `simple/simple.go` — the delimited-text backend (`simpleFile`),
* the xlsx backend (`Document`: `OpenReader`, `List`, `Get`),
* the cfb backend (`Document.Open` for named streams).

Go machine integers are modelled as `Nat`/`Int` with explicit `% 2^w` where
overflow matters; fallible Go functions return `Option`/`Except`; Go methods
that mutate their receiver are modelled by explicit state passing.
-/

namespace GrateSpec

/-- Error model for the registry level.  The sentinel errors `ErrNotInFormat`
and `ErrUnknownFormat` live in a grate source file that only declares them
(per the spec's error taxonomy: NotInFormat is "wrappable: backends may attach
a cause while preserving this classification", and `errors.Is(e, ErrNotInFormat)`
holds exactly for the sentinel and its wrappings).  Modelled from the spec:
`notInFormat none` is the bare sentinel, `notInFormat (some c)` is
`WrapErr(c, ErrNotInFormat)`. -/
inductive GErr where
  | notInFormat (cause : Option String)
  | unknownFormat
  | other (msg : String)
deriving DecidableEq, Repr, Inhabited

/-- Boolean form of Go's `errors.Is(err, ErrNotInFormat)` over the model. -/
def GErr.isNotInFormat : GErr → Bool
  | .notInFormat _ => true
  | _ => false

/-- `WrapErr(err, ErrNotInFormat)` from the xlsx backend: attaches a cause while
keeping the NotInFormat classification (modelled from the spec's error
taxonomy; the wrapping helper itself is not under src/). -/
def WrapNotInFormat (cause : String) : GErr :=
  .notInFormat (some cause)

/-- One entry of a dispatch table (`srcOpenTab` / `fileOpenTab` /
`readerOpenTab` in grate.go).  The three Go tables differ only in the probe's
input type, so the entry is polymorphic in the probe input `ι` and the source
type `σ`; `op` is the registered `OpenFunc`/`OpenFileFunc`/`OpenReaderFunc`. -/
structure OpenTab (ι σ : Type) where
  name : String
  pri : Int
  op : ι → Except GErr σ

instance {ι σ : Type} : Inhabited (OpenTab ι σ) :=
  ⟨⟨"", 0, fun _ => .error .unknownFormat⟩⟩

/-- Go's `Open`/`OpenFile`/`OpenReader` loop from grate.go: walk the table in
slice order; a probe returning a source wins; an error that is not
`ErrNotInFormat` aborts; if every probe rejects, return `ErrUnknownFormat`.
The Go globals `srcTable`/`fileTable`/`readerTable` are passed explicitly. -/
def OpenGo {ι σ : Type} (t : List (OpenTab ι σ)) (x : ι) : Except GErr σ :=
  match t with
  | [] => .error .unknownFormat
  | o :: rest =>
    match o.op x with
    | .ok src => .ok src
    | .error e => if e.isNotInFormat then OpenGo rest x else .error e

/-- Instrumentation of the same loop: the list of table entries whose probe
actually runs during `OpenGo t x`, in the order they are invoked. -/
def OpenTried {ι σ : Type} (t : List (OpenTab ι σ)) (x : ι) : List (OpenTab ι σ) :=
  match t with
  | [] => []
  | o :: rest =>
    match o.op x with
    | .ok _ => [o]
    | .error e => if e.isNotInFormat then o :: OpenTried rest x else [o]

/-- A table entry rejects input `x` when its probe returns an error that
`errors.Is`-matches `ErrNotInFormat`. -/
def rejects {ι σ : Type} (o : OpenTab ι σ) (x : ι) : Bool :=
  match o.op x with
  | .ok _ => false
  | .error e => e.isNotInFormat

theorem rejects_of_error {ι σ : Type} {o : OpenTab ι σ} {x : ι} {e : GErr}
    (h : o.op x = .error e) : rejects o x = e.isNotInFormat := by
  unfold rejects; rw [h]

theorem not_rejects_of_ok {ι σ : Type} {o : OpenTab ι σ} {x : ι} {s : σ}
    (h : o.op x = .ok s) : rejects o x = false := by
  unfold rejects; rw [h]

theorem OpenGo_cons_ok {ι σ : Type} {o : OpenTab ι σ} {rest : List (OpenTab ι σ)}
    {x : ι} {s : σ} (h : o.op x = .ok s) : OpenGo (o :: rest) x = .ok s := by
  unfold OpenGo; rw [h]

theorem OpenGo_cons_reject {ι σ : Type} {o : OpenTab ι σ} {rest : List (OpenTab ι σ)}
    {x : ι} {e : GErr} (h : o.op x = .error e) (hni : e.isNotInFormat = true) :
    OpenGo (o :: rest) x = OpenGo rest x := by
  unfold OpenGo; rw [h]; simp only [hni, if_pos]; cases rest <;> rfl

theorem OpenGo_cons_fatal {ι σ : Type} {o : OpenTab ι σ} {rest : List (OpenTab ι σ)}
    {x : ι} {e : GErr} (h : o.op x = .error e) (hni : e.isNotInFormat = false) :
    OpenGo (o :: rest) x = .error e := by
  unfold OpenGo; rw [h]; simp [hni]

theorem OpenTried_cons_ok {ι σ : Type} {o : OpenTab ι σ} {rest : List (OpenTab ι σ)}
    {x : ι} {s : σ} (h : o.op x = .ok s) : OpenTried (o :: rest) x = [o] := by
  unfold OpenTried; rw [h]

theorem OpenTried_cons_reject {ι σ : Type} {o : OpenTab ι σ} {rest : List (OpenTab ι σ)}
    {x : ι} {e : GErr} (h : o.op x = .error e) (hni : e.isNotInFormat = true) :
    OpenTried (o :: rest) x = o :: OpenTried rest x := by
  unfold OpenTried; rw [h]; simp only [hni, if_pos]; cases rest <;> rfl

theorem OpenTried_cons_fatal {ι σ : Type} {o : OpenTab ι σ} {rest : List (OpenTab ι σ)}
    {x : ι} {e : GErr} (h : o.op x = .error e) (hni : e.isNotInFormat = false) :
    OpenTried (o :: rest) x = [o] := by
  unfold OpenTried; rw [h]; simp [hni]

theorem rejects_cases {ι σ : Type} (o : OpenTab ι σ) (x : ι)
    (h : rejects o x = true) : ∃ e, o.op x = .error e ∧ e.isNotInFormat = true := by
  cases hop : o.op x with
  | ok s => rw [not_rejects_of_ok hop] at h; exact absurd h (by simp)
  | error e => exact ⟨e, rfl, by rw [rejects_of_error hop] at h; exact h⟩

theorem OpenGo_of_all_rejects {ι σ : Type} (t : List (OpenTab ι σ)) (x : ι)
    (h : ∀ o ∈ t, rejects o x = true) :
    OpenGo t x = .error .unknownFormat ∧ OpenTried t x = t := by
  induction t with
  | nil => exact ⟨rfl, rfl⟩
  | cons o rest ih =>
    obtain ⟨e, hop, hni⟩ := rejects_cases o x (h o (List.mem_cons_self o rest))
    have hrest := ih (fun p hp => h p (List.mem_cons_of_mem o hp))
    rw [OpenGo_cons_reject hop hni, OpenTried_cons_reject hop hni, hrest.1, hrest.2]
    exact ⟨rfl, rfl⟩

theorem OpenGo_first_hit {ι σ : Type} (t₁ : List (OpenTab ι σ)) (o : OpenTab ι σ)
    (t₂ : List (OpenTab ι σ)) (x : ι)
    (h₁ : ∀ p ∈ t₁, rejects p x = true) :
    (∀ s, o.op x = .ok s →
      OpenGo (t₁ ++ o :: t₂) x = .ok s ∧ OpenTried (t₁ ++ o :: t₂) x = t₁ ++ [o]) ∧
    (∀ e, o.op x = .error e → e.isNotInFormat = false →
      OpenGo (t₁ ++ o :: t₂) x = .error e ∧ OpenTried (t₁ ++ o :: t₂) x = t₁ ++ [o]) := by
  induction t₁ with
  | nil =>
    refine ⟨fun s hs => ?_, fun e he hni => ?_⟩
    · rw [List.nil_append, OpenGo_cons_ok hs, OpenTried_cons_ok hs]
      exact ⟨rfl, rfl⟩
    · rw [List.nil_append, OpenGo_cons_fatal he hni, OpenTried_cons_fatal he hni]
      exact ⟨rfl, rfl⟩
  | cons p rest ih =>
    obtain ⟨e', hop, hni'⟩ := rejects_cases p x (h₁ p (List.mem_cons_self p rest))
    have ihr := ih (fun q hq => h₁ q (List.mem_cons_of_mem p hq))
    refine ⟨fun s hs => ?_, fun e he hni => ?_⟩
    · have h' := ihr.1 s hs
      rw [List.cons_append, OpenGo_cons_reject hop hni', OpenTried_cons_reject hop hni',
        h'.1, h'.2]
      exact ⟨rfl, rfl⟩
    · have h' := ihr.2 e he hni
      rw [List.cons_append, OpenGo_cons_reject hop hni', OpenTried_cons_reject hop hni',
        h'.1, h'.2]
      exact ⟨rfl, rfl⟩

theorem OpenTried_sublist {ι σ : Type} (t : List (OpenTab ι σ)) (x : ι) :
    (OpenTried t x).Sublist t := by
  induction t with
  | nil => exact List.Sublist.refl []
  | cons o rest ih =>
    cases hop : o.op x with
    | ok s => rw [OpenTried_cons_ok hop]; exact (List.nil_sublist rest).cons₂ o
    | error e =>
      cases hni : e.isNotInFormat with
      | true => rw [OpenTried_cons_reject hop hni]; exact ih.cons₂ o
      | false => rw [OpenTried_cons_fatal hop hni]; exact (List.nil_sublist rest).cons₂ o

/-- C1: `Open` (and `OpenFile`, `OpenReader`, which share the same loop over
their own tables, captured here by the polymorphic probe input) tries the
probes of its table in ascending priority order (the table order, which for a
priority-sorted table is ascending); a probe that returns a Source ends the
search with that Source and no later probe runs; a probe error that is not
NotInFormat is returned at once; if every probe rejects with NotInFormat the
result is ErrUnknownFormat. -/
theorem C1_open_dispatch {ι σ : Type} (t : List (OpenTab ι σ)) (x : ι) :
    ((∀ o ∈ t, rejects o x = true) →
      OpenGo t x = .error .unknownFormat ∧ OpenTried t x = t) ∧
    (∀ t₁ (o : OpenTab ι σ) t₂ s, t = t₁ ++ o :: t₂ →
      (∀ p ∈ t₁, rejects p x = true) → o.op x = .ok s →
      OpenGo t x = .ok s ∧ OpenTried t x = t₁ ++ [o]) ∧
    (∀ t₁ (o : OpenTab ι σ) t₂ e, t = t₁ ++ o :: t₂ →
      (∀ p ∈ t₁, rejects p x = true) → o.op x = .error e → e.isNotInFormat = false →
      OpenGo t x = .error e ∧ OpenTried t x = t₁ ++ [o]) ∧
    (List.Pairwise (fun a b => a.pri ≤ b.pri) t →
      List.Pairwise (fun a b => a.pri ≤ b.pri) (OpenTried t x)) := by
  refine ⟨OpenGo_of_all_rejects t x, ?_, ?_, ?_⟩
  · intro t₁ o t₂ s ht h₁ hs
    subst ht
    exact (OpenGo_first_hit t₁ o t₂ x h₁).1 s hs
  · intro t₁ o t₂ e ht h₁ he hni
    subst ht
    exact (OpenGo_first_hit t₁ o t₂ x h₁).2 e he hni
  · intro hp
    exact hp.sublist (OpenTried_sublist t x)

/-!
Go's `sort.Slice` (the pattern-defeating quicksort of the Go standard library,
Go 1.19 and later), embedded faithfully because `Register` in grate.go sorts
its dispatch table with it after every append.  The array is a `List α`, every
mutation goes through `lswap`, and each Go loop carries an explicit fuel that
strictly exceeds its iteration count (each loop's measure strictly decreases,
so the fuel-out branches are unreachable for the initial fuels used here).
-/

/-- Swap of two positions of a list (Go `data.Swap(i, j)`); identity when an
index is out of range (unreachable in the embedded algorithm's executions). -/
def lswap {α : Type} [Inhabited α] (l : List α) (i j : Nat) : List α :=
  if i < l.length ∧ j < l.length then
    (l.set i (l.getD j default)).set j (l.getD i default)
  else l

/-- Go `data.Less(i, j)`: compare the elements at two positions. -/
def lless {α : Type} [Inhabited α] (less : α → α → Bool) (l : List α) (i j : Nat) : Bool :=
  less (l.getD i default) (l.getD j default)

/-- Inner loop of Go `insertionSortCmpFunc`: bubble position `j` left while it
is less than its predecessor. -/
def isortInner {α : Type} [Inhabited α] (less : α → α → Bool) (a : Nat) :
    List α → Nat → List α
  | l, 0 => l
  | l, j+1 =>
    if a < j+1 ∧ lless less l (j+1) j = true then isortInner less a (lswap l (j+1) j) j
    else l

/-- Outer loop of Go `insertionSortCmpFunc` over `i = a+1 .. b-1`. -/
def isortLoop {α : Type} [Inhabited α] (less : α → α → Bool) (a b : Nat) :
    List α → Nat → Nat → List α
  | l, _, 0 => l
  | l, i, fuel+1 =>
    if i < b then isortLoop less a b (isortInner less a l i) (i+1) fuel else l

/-- Go `insertionSortCmpFunc(data, a, b)`. -/
def insertionSortGo {α : Type} [Inhabited α] (less : α → α → Bool) (l : List α)
    (a b : Nat) : List α :=
  isortLoop less a b l (a+1) b

/-- Loop of Go `siftDownCmpFunc`: sift the root down through the heap in
`[first, first+hi)`. -/
def sdLoop {α : Type} [Inhabited α] (less : α → α → Bool) (hi first : Nat) :
    List α → Nat → Nat → List α
  | l, _, 0 => l
  | l, root, fuel+1 =>
    let child0 := 2*root + 1
    if child0 ≥ hi then l
    else
      let child :=
        if child0+1 < hi ∧ lless less l (first+child0) (first+child0+1) = true then child0+1
        else child0
      if lless less l (first+root) (first+child) = false then l
      else sdLoop less hi first (lswap l (first+root) (first+child)) child fuel

/-- Go `siftDownCmpFunc(data, lo, hi, first)`. -/
def siftDownGo {α : Type} [Inhabited α] (less : α → α → Bool) (l : List α)
    (lo hi first : Nat) : List α :=
  sdLoop less hi first l lo (hi+1)

/-- Heap-building loop of Go `heapSortCmpFunc`: `for i := (hi-1)/2; i >= 0; i--`,
counted down by `c` = number of remaining iterations (`i = c-1`). -/
def hsBuild {α : Type} [Inhabited α] (less : α → α → Bool) (first hi : Nat) :
    List α → Nat → List α
  | l, 0 => l
  | l, c+1 => hsBuild less first hi (siftDownGo less l c hi first) c

/-- Pop loop of Go `heapSortCmpFunc`: `for i := hi-1; i >= 0; i--`, counted down
by `c` (`i = c-1`). -/
def hsPop {α : Type} [Inhabited α] (less : α → α → Bool) (first : Nat) :
    List α → Nat → List α
  | l, 0 => l
  | l, c+1 => hsPop less first (siftDownGo less (lswap l first (first + c)) 0 c first) c

/-- Go `heapSortCmpFunc(data, a, b)`. -/
def heapSortGo {α : Type} [Inhabited α] (less : α → α → Bool) (l : List α)
    (a b : Nat) : List α :=
  let first := a
  let hi := b - a
  hsPop less first (hsBuild less first hi l ((hi - 1)/2 + 1)) hi

/-- Loop of Go `reverseRangeCmpFunc`. -/
def revLoop {α : Type} [Inhabited α] : List α → Nat → Nat → Nat → List α
  | l, _, _, 0 => l
  | l, i, j, fuel+1 => if i < j then revLoop (lswap l i j) (i+1) (j-1) fuel else l

/-- Go `reverseRangeCmpFunc(data, a, b)`. -/
def reverseRangeGo {α : Type} [Inhabited α] (l : List α) (a b : Nat) : List α :=
  revLoop l a (b-1) b

/-- Go's `xorshift.Next` pseudo-random step on a `uint64` state. -/
def xorshiftNext (r : Nat) : Nat :=
  let r1 := (r ^^^ (r <<< 13)) % 2^64
  let r2 := r1 ^^^ (r1 >>> 17)
  let r3 := (r2 ^^^ (r2 <<< 5)) % 2^64
  r3

/-- Structural-recursion form of Go `bits.Len` (number of bits of `n`). -/
def bitsLenAux : Nat → Nat → Nat
  | _, 0 => 0
  | 0, _+1 => 0
  | fuel+1, n+1 => bitsLenAux fuel ((n+1) / 2) + 1

/-- Go `bits.Len(n)`: the fuel `n` strictly exceeds the number of halvings. -/
def bitsLen (n : Nat) : Nat := bitsLenAux n n

/-- Go sort's `nextPowerOfTwo(length) = 1 << bits.Len(length)`. -/
def nextPowerOfTwo (length : Nat) : Nat := 1 <<< bitsLen length

/-- One of the three swaps of Go `breakPatternsCmpFunc`: draw from the
xorshift stream, reduce modulo the next power of two, and swap. -/
def bpStep {α : Type} [Inhabited α] (l : List α) (a length r idx : Nat) :
    Nat × List α :=
  let r' := xorshiftNext r
  let other0 := r' &&& (nextPowerOfTwo length - 1)
  let other := if other0 ≥ length then other0 - length else other0
  (r', lswap l idx (a + other))

/-- Go `breakPatternsCmpFunc(data, a, b)`: scatter three elements around the
middle when the range has at least 8 elements. -/
def breakPatternsGo {α : Type} [Inhabited α] (l : List α) (a b : Nat) : List α :=
  let length := b - a
  if length ≥ 8 then
    let idx0 := a + (length/4)*2 - 1
    let s1 := bpStep l a length length idx0
    let s2 := bpStep s1.2 a length s1.1 (idx0+1)
    let s3 := bpStep s2.2 a length s2.1 (idx0+2)
    s3.2
  else l

/-- Go sort's `sortedHint`. -/
inductive SortedHint where
  | unknown
  | increasing
  | decreasing
deriving DecidableEq, Repr

/-- Go `order2CmpFunc(data, a, b, swaps)`: order two positions, counting swaps. -/
def order2Go {α : Type} [Inhabited α] (less : α → α → Bool) (l : List α)
    (a b sw : Nat) : Nat × Nat × Nat :=
  if lless less l b a = true then (b, a, sw+1) else (a, b, sw)

/-- Go `medianCmpFunc(data, a, b, c, swaps)`. -/
def medianGo {α : Type} [Inhabited α] (less : α → α → Bool) (l : List α)
    (a b c sw : Nat) : Nat × Nat :=
  let o1 := order2Go less l a b sw
  let o2 := order2Go less l o1.2.1 c o1.2.2
  let o3 := order2Go less l o1.1 o2.1 o2.2.2
  (o3.2.1, o3.2.2)

/-- Go `medianAdjacentCmpFunc(data, a, swaps)`. -/
def medianAdjacentGo {α : Type} [Inhabited α] (less : α → α → Bool) (l : List α)
    (a sw : Nat) : Nat × Nat :=
  medianGo less l (a-1) a (a+1) sw

/-- Go `choosePivotCmpFunc(data, a, b)`: median (or ninther) sampling with a
sortedness hint from the swap count. -/
def choosePivotGo {α : Type} [Inhabited α] (less : α → α → Bool) (l : List α)
    (a b : Nat) : Nat × SortedHint :=
  let length := b - a
  let i := a + length/4*1
  let j := a + length/4*2
  let k := a + length/4*3
  let js :=
    if length ≥ 8 then
      if length ≥ 50 then
        let m1 := medianAdjacentGo less l i 0
        let m2 := medianAdjacentGo less l j m1.2
        let m3 := medianAdjacentGo less l k m2.2
        medianGo less l m1.1 m2.1 m3.1 m3.2
      else medianGo less l i j k 0
    else (j, 0)
  (js.1, if js.2 = 0 then .increasing else if js.2 = 12 then .decreasing else .unknown)

/-- Scan of Go `partialInsertionSortCmpFunc`: advance `i` while the element is
not less than its predecessor (no mutation). -/
def pisAdvance {α : Type} [Inhabited α] (less : α → α → Bool) (b : Nat)
    (l : List α) : Nat → Nat → Nat
  | i, 0 => i
  | i, fuel+1 =>
    if i < b then
      if lless less l i (i-1) = true then i else pisAdvance less b l (i+1) fuel
    else i

/-- Left-shift loop of Go `partialInsertionSortCmpFunc`:
`for j := i-1; j >= 1; j--` bubbling the smaller element left. -/
def pisShiftLeft {α : Type} [Inhabited α] (less : α → α → Bool) :
    List α → Nat → List α
  | l, 0 => l
  | l, j+1 =>
    if lless less l (j+1) j = true then pisShiftLeft less (lswap l (j+1) j) j else l

/-- Right-shift loop of Go `partialInsertionSortCmpFunc`:
`for j := i+1; j < b; j++` bubbling the greater element right. -/
def pisShiftRight {α : Type} [Inhabited α] (less : α → α → Bool) (b : Nat) :
    List α → Nat → Nat → List α
  | l, _, 0 => l
  | l, j, fuel+1 =>
    if j < b then
      if lless less l j (j-1) = true then pisShiftRight less b (lswap l j (j-1)) (j+1) fuel
      else l
    else l

/-- Step loop (`maxSteps = 5`) of Go `partialInsertionSortCmpFunc`; returns
whether the range ended up sorted, plus the (possibly mutated) list. -/
def pisLoop {α : Type} [Inhabited α] (less : α → α → Bool) (a b : Nat) :
    List α → Nat → Nat → Bool × List α
  | l, _, 0 => (false, l)
  | l, i, steps+1 =>
    let i' := pisAdvance less b l i b
    if i' = b then (true, l)
    else if b - a < 50 then (false, l)
    else
      let l1 := lswap l i' (i'-1)
      let l2 := if i' - a ≥ 2 then pisShiftLeft less l1 (i'-1) else l1
      let l3 := if b - i' ≥ 2 then pisShiftRight less b l2 (i'+1) b else l2
      pisLoop less a b l3 i' steps

/-- Go `partialInsertionSortCmpFunc(data, a, b)`. -/
def partialInsertionSortGo {α : Type} [Inhabited α] (less : α → α → Bool)
    (l : List α) (a b : Nat) : Bool × List α :=
  pisLoop less a b l (a+1) 5

/-- Advance `i` of Go `partitionCmpFunc` while `i <= j && data.Less(i, a)`. -/
def partAdvanceI {α : Type} [Inhabited α] (less : α → α → Bool) (l : List α)
    (aPiv j : Nat) : Nat → Nat → Nat
  | i, 0 => i
  | i, fuel+1 =>
    if i ≤ j ∧ lless less l i aPiv = true then partAdvanceI less l aPiv j (i+1) fuel else i

/-- Retreat `j` of Go `partitionCmpFunc` while `i <= j && !data.Less(j, a)`. -/
def partAdvanceJ {α : Type} [Inhabited α] (less : α → α → Bool) (l : List α)
    (aPiv i : Nat) : Nat → Nat → Nat
  | j, 0 => j
  | j, fuel+1 =>
    if i ≤ j ∧ lless less l j aPiv = false then partAdvanceJ less l aPiv i (j-1) fuel else j

/-- Main exchange loop of Go `partitionCmpFunc`; returns the final `j` and the
mutated list. -/
def partLoop {α : Type} [Inhabited α] (less : α → α → Bool) (aPiv b : Nat) :
    List α → Nat → Nat → Nat → Nat × List α
  | l, _, j, 0 => (j, l)
  | l, i, j, fuel+1 =>
    let i' := partAdvanceI less l aPiv j i b
    let j' := partAdvanceJ less l aPiv i' j b
    if i' > j' then (j', l)
    else partLoop less aPiv b (lswap l i' j') (i'+1) (j'-1) fuel

/-- Go `partitionCmpFunc(data, a, b, pivot)`: Hoare partition around the pivot
moved to position `a`; returns `(newpivot, alreadyPartitioned, data)`. -/
def partitionGo {α : Type} [Inhabited α] (less : α → α → Bool) (l : List α)
    (a b pivot : Nat) : Nat × Bool × List α :=
  let l0 := lswap l a pivot
  let i1 := partAdvanceI less l0 a (b-1) (a+1) b
  let j1 := partAdvanceJ less l0 a i1 (b-1) b
  if i1 > j1 then (j1, true, lswap l0 j1 a)
  else
    let pl := partLoop less a b (lswap l0 i1 j1) (i1+1) (j1-1) b
    (pl.1, false, lswap pl.2 pl.1 a)

/-- Advance `i` of Go `partitionEqualCmpFunc` while `i <= j && !data.Less(a, i)`. -/
def peAdvanceI {α : Type} [Inhabited α] (less : α → α → Bool) (l : List α)
    (aPiv j : Nat) : Nat → Nat → Nat
  | i, 0 => i
  | i, fuel+1 =>
    if i ≤ j ∧ lless less l aPiv i = false then peAdvanceI less l aPiv j (i+1) fuel else i

/-- Retreat `j` of Go `partitionEqualCmpFunc` while `i <= j && data.Less(a, j)`. -/
def peAdvanceJ {α : Type} [Inhabited α] (less : α → α → Bool) (l : List α)
    (aPiv i : Nat) : Nat → Nat → Nat
  | j, 0 => j
  | j, fuel+1 =>
    if i ≤ j ∧ lless less l aPiv j = true then peAdvanceJ less l aPiv i (j-1) fuel else j

/-- Exchange loop of Go `partitionEqualCmpFunc`; returns the final `i` and the
mutated list. -/
def peLoop {α : Type} [Inhabited α] (less : α → α → Bool) (aPiv b : Nat) :
    List α → Nat → Nat → Nat → Nat × List α
  | l, i, _, 0 => (i, l)
  | l, i, j, fuel+1 =>
    let i' := peAdvanceI less l aPiv j i b
    let j' := peAdvanceJ less l aPiv i' j b
    if i' > j' then (i', l)
    else peLoop less aPiv b (lswap l i' j') (i'+1) (j'-1) fuel

/-- Go `partitionEqualCmpFunc(data, a, b, pivot)`: move elements equal to the
pivot to the front; returns the first index past them plus the mutated list. -/
def partitionEqualGo {α : Type} [Inhabited α] (less : α → α → Bool) (l : List α)
    (a b pivot : Nat) : Nat × List α :=
  peLoop less a b (lswap l a pivot) (a+1) (b-1) b

/-- Go `pdqsortCmpFunc(data, a, b, limit)` with the loop turned into recursion:
`wasBalanced`/`wasPartitioned` are the loop-carried flags (`true, true` at
entry), and the fuel strictly exceeds the loop's iteration count, since
`b - a` strictly shrinks on every continue. -/
def pdqsortGo {α : Type} [Inhabited α] (less : α → α → Bool) :
    List α → Nat → Nat → Nat → Bool → Bool → Nat → List α
  | l, _, _, _, _, _, 0 => l
  | l, a, b, limit, wasBalanced, wasPartitioned, fuel+1 =>
    let length := b - a
    if length ≤ 12 then insertionSortGo less l a b
    else if limit = 0 then heapSortGo less l a b
    else
      let l1 := if wasBalanced = false then breakPatternsGo l a b else l
      let limit1 := if wasBalanced = false then limit - 1 else limit
      let cp := choosePivotGo less l1 a b
      let pivot := if cp.2 = .decreasing then (b - 1) - (cp.1 - a) else cp.1
      let hint := if cp.2 = .decreasing then SortedHint.increasing else cp.2
      let l2 := if cp.2 = .decreasing then reverseRangeGo l1 a b else l1
      let ps :=
        if wasBalanced = true ∧ wasPartitioned = true ∧ hint = .increasing then
          partialInsertionSortGo less l2 a b
        else (false, l2)
      if ps.1 = true then ps.2
      else
        let l3 := ps.2
        if 0 < a ∧ lless less l3 (a-1) pivot = false then
          let pe := partitionEqualGo less l3 a b pivot
          pdqsortGo less pe.2 pe.1 b limit1 wasBalanced wasPartitioned fuel
        else
          let pt := partitionGo less l3 a b pivot
          let mid := pt.1
          let wasPartitioned2 := pt.2.1
          let leftLen := mid - a
          let rightLen := b - mid
          let balanceThreshold := length / 8
          let wasBalanced2 := decide (min leftLen rightLen ≥ balanceThreshold)
          let limit2 := limit1 - 1
          if leftLen < rightLen then
            let l4 := pdqsortGo less pt.2.2 a mid limit2 true true fuel
            pdqsortGo less l4 (mid+1) b limit2 wasBalanced2 wasPartitioned2 fuel
          else
            let l4 := pdqsortGo less pt.2.2 (mid+1) b limit2 true true fuel
            pdqsortGo less l4 a mid limit2 wasBalanced2 wasPartitioned2 fuel

/-- Go `sort.Slice(x, less)`: `pdqsort(data, 0, length, bits.Len(length))`. -/
def sortSliceGo {α : Type} [Inhabited α] (less : α → α → Bool) (l : List α) :
    List α :=
  pdqsortGo less l 0 l.length (bitsLen l.length) true true (l.length + 1)

/-- The comparison Go's `Register` passes to `sort.Slice`:
`srcTable[i].pri < srcTable[j].pri`. -/
def tabLess {ι σ : Type} (x y : OpenTab ι σ) : Bool :=
  decide (x.pri < y.pri)

/-- Go `Register`/`RegisterFile`/`RegisterReader` from grate.go (polymorphic in
the probe input, like `OpenGo`): append the new entry, then re-sort the table
by priority with `sort.Slice`.  The Go function also returns a `nil` error,
omitted here. -/
def RegisterGo {ι σ : Type} (t : List (OpenTab ι σ)) (e : OpenTab ι σ) :
    List (OpenTab ι σ) :=
  sortSliceGo tabLess (t ++ [e])

theorem getD_cons_set_perm {α : Type} [Inhabited α] :
    ∀ (tl : List α) (k : Nat) (x : α), k < tl.length →
      (tl.getD k default :: tl.set k x).Perm (x :: tl) := by
  intro tl
  induction tl with
  | nil => intro k x h; exact absurd h (by simp)
  | cons y r ih =>
    intro k x h
    cases k with
    | zero => simpa using List.Perm.swap x y r
    | succ k =>
      have hk : k < r.length := by simpa using h
      have e1 : (r.getD k default :: (y :: r).set (k+1) x)
          = r.getD k default :: y :: r.set k x := by simp
      rw [show ((y :: r).getD (k+1) default) = r.getD k default from by simp, e1]
      exact ((List.Perm.swap y (r.getD k default) (r.set k x)).trans
        ((ih k x hk).cons y)).trans (List.Perm.swap x y r)

theorem set_set_swap_perm {α : Type} [Inhabited α] :
    ∀ (l : List α) (i j : Nat), i < l.length → j < l.length →
      ((l.set i (l.getD j default)).set j (l.getD i default)).Perm l := by
  intro l
  induction l with
  | nil => intro i j h; exact absurd h (by simp)
  | cons x tl ih =>
    intro i j hi hj
    cases i with
    | zero =>
      cases j with
      | zero => simp
      | succ k =>
        have hk : k < tl.length := by simpa using hj
        have : ((x :: tl).set 0 ((x :: tl).getD (k+1) default)).set (k+1)
            ((x :: tl).getD 0 default) = tl.getD k default :: tl.set k x := by simp
        rw [this]
        exact getD_cons_set_perm tl k x hk
    | succ m =>
      cases j with
      | zero =>
        have hm : m < tl.length := by simpa using hi
        have : ((x :: tl).set (m+1) ((x :: tl).getD 0 default)).set 0
            ((x :: tl).getD (m+1) default) = tl.getD m default :: tl.set m x := by simp
        rw [this]
        exact getD_cons_set_perm tl m x hm
      | succ k =>
        have hm : m < tl.length := by simpa using hi
        have hk : k < tl.length := by simpa using hj
        have : ((x :: tl).set (m+1) ((x :: tl).getD (k+1) default)).set (k+1)
            ((x :: tl).getD (m+1) default)
            = x :: ((tl.set m (tl.getD k default)).set k (tl.getD m default)) := by simp
        rw [this]
        exact (ih m k hm hk).cons x

theorem lswap_perm {α : Type} [Inhabited α] (l : List α) (i j : Nat) :
    (lswap l i j).Perm l := by
  unfold lswap
  split
  · next h => exact set_set_swap_perm l i j h.1 h.2
  · exact List.Perm.refl l

theorem isortInner_perm {α : Type} [Inhabited α] (less : α → α → Bool) (a : Nat) :
    ∀ (j : Nat) (l : List α), (isortInner less a l j).Perm l := by
  intro j
  induction j with
  | zero => intro l; exact List.Perm.refl l
  | succ j ih =>
    intro l
    unfold isortInner
    split
    · exact (ih _).trans (lswap_perm l (j+1) j)
    · exact List.Perm.refl l

theorem isortLoop_perm {α : Type} [Inhabited α] (less : α → α → Bool) (a b : Nat) :
    ∀ (fuel : Nat) (l : List α) (i : Nat), (isortLoop less a b l i fuel).Perm l := by
  intro fuel
  induction fuel with
  | zero => intro l i; exact List.Perm.refl l
  | succ fuel ih =>
    intro l i
    unfold isortLoop
    split
    · exact (ih _ _).trans (isortInner_perm less a i l)
    · exact List.Perm.refl l

theorem insertionSortGo_perm {α : Type} [Inhabited α] (less : α → α → Bool)
    (l : List α) (a b : Nat) : (insertionSortGo less l a b).Perm l :=
  isortLoop_perm less a b b l (a+1)

theorem sdLoop_perm {α : Type} [Inhabited α] (less : α → α → Bool) (hi first : Nat) :
    ∀ (fuel : Nat) (l : List α) (root : Nat), (sdLoop less hi first l root fuel).Perm l := by
  intro fuel
  induction fuel with
  | zero => intro l root; exact List.Perm.refl l
  | succ fuel ih =>
    intro l root
    unfold sdLoop
    dsimp only
    split
    · exact List.Perm.refl l
    · split <;> split
      · exact List.Perm.refl l
      · exact (ih _ _).trans (lswap_perm l _ _)
      · exact List.Perm.refl l
      · exact (ih _ _).trans (lswap_perm l _ _)

theorem siftDownGo_perm {α : Type} [Inhabited α] (less : α → α → Bool)
    (l : List α) (lo hi first : Nat) : (siftDownGo less l lo hi first).Perm l :=
  sdLoop_perm less hi first (hi+1) l lo

theorem hsBuild_perm {α : Type} [Inhabited α] (less : α → α → Bool) (first hi : Nat) :
    ∀ (c : Nat) (l : List α), (hsBuild less first hi l c).Perm l := by
  intro c
  induction c with
  | zero => intro l; exact List.Perm.refl l
  | succ c ih =>
    intro l
    unfold hsBuild
    exact (ih _).trans (siftDownGo_perm less l c hi first)

theorem hsPop_perm {α : Type} [Inhabited α] (less : α → α → Bool) (first : Nat) :
    ∀ (c : Nat) (l : List α), (hsPop less first l c).Perm l := by
  intro c
  induction c with
  | zero => intro l; exact List.Perm.refl l
  | succ c ih =>
    intro l
    unfold hsPop
    exact (ih _).trans ((siftDownGo_perm less _ 0 c first).trans (lswap_perm l _ _))

theorem heapSortGo_perm {α : Type} [Inhabited α] (less : α → α → Bool)
    (l : List α) (a b : Nat) : (heapSortGo less l a b).Perm l := by
  unfold heapSortGo
  exact (hsPop_perm less a (b-a) _).trans (hsBuild_perm less a (b-a) _ l)

theorem revLoop_perm {α : Type} [Inhabited α] :
    ∀ (fuel : Nat) (l : List α) (i j : Nat), (revLoop l i j fuel).Perm l := by
  intro fuel
  induction fuel with
  | zero => intro l i j; exact List.Perm.refl l
  | succ fuel ih =>
    intro l i j
    unfold revLoop
    split
    · exact (ih _ _ _).trans (lswap_perm l i j)
    · exact List.Perm.refl l

theorem reverseRangeGo_perm {α : Type} [Inhabited α] (l : List α) (a b : Nat) :
    (reverseRangeGo l a b).Perm l :=
  revLoop_perm b l a (b-1)

theorem bpStep_perm {α : Type} [Inhabited α] (l : List α) (a length r idx : Nat) :
    (bpStep l a length r idx).2.Perm l :=
  lswap_perm l _ _

theorem breakPatternsGo_perm {α : Type} [Inhabited α] (l : List α) (a b : Nat) :
    (breakPatternsGo l a b).Perm l := by
  unfold breakPatternsGo
  dsimp only
  split
  · exact (bpStep_perm _ _ _ _ _).trans ((bpStep_perm _ _ _ _ _).trans (bpStep_perm _ _ _ _ _))
  · exact List.Perm.refl l

theorem pisShiftLeft_perm {α : Type} [Inhabited α] (less : α → α → Bool) :
    ∀ (j : Nat) (l : List α), (pisShiftLeft less l j).Perm l := by
  intro j
  induction j with
  | zero => intro l; exact List.Perm.refl l
  | succ j ih =>
    intro l
    unfold pisShiftLeft
    split
    · exact (ih _).trans (lswap_perm l (j+1) j)
    · exact List.Perm.refl l

theorem pisShiftRight_perm {α : Type} [Inhabited α] (less : α → α → Bool) (b : Nat) :
    ∀ (fuel : Nat) (l : List α) (j : Nat), (pisShiftRight less b l j fuel).Perm l := by
  intro fuel
  induction fuel with
  | zero => intro l j; exact List.Perm.refl l
  | succ fuel ih =>
    intro l j
    unfold pisShiftRight
    split
    · split
      · exact (ih _ _).trans (lswap_perm l j (j-1))
      · exact List.Perm.refl l
    · exact List.Perm.refl l

theorem pisLoop_perm {α : Type} [Inhabited α] (less : α → α → Bool) (a b : Nat) :
    ∀ (steps : Nat) (l : List α) (i : Nat), (pisLoop less a b l i steps).2.Perm l := by
  intro steps
  induction steps with
  | zero => intro l i; exact List.Perm.refl l
  | succ steps ih =>
    intro l i
    unfold pisLoop
    dsimp only
    split
    · exact List.Perm.refl l
    · split
      · exact List.Perm.refl l
      · refine (ih _ _).trans ?_
        split
        · split
          · exact ((pisShiftRight_perm less b b _ _).trans
              (pisShiftLeft_perm less _ _)).trans (lswap_perm _ _ _)
          · exact (pisShiftRight_perm less b b _ _).trans (lswap_perm _ _ _)
        · split
          · exact (pisShiftLeft_perm less _ _).trans (lswap_perm _ _ _)
          · exact lswap_perm _ _ _

theorem partialInsertionSortGo_perm {α : Type} [Inhabited α] (less : α → α → Bool)
    (l : List α) (a b : Nat) : (partialInsertionSortGo less l a b).2.Perm l :=
  pisLoop_perm less a b 5 l (a+1)

theorem partLoop_perm {α : Type} [Inhabited α] (less : α → α → Bool) (aPiv b : Nat) :
    ∀ (fuel : Nat) (l : List α) (i j : Nat), (partLoop less aPiv b l i j fuel).2.Perm l := by
  intro fuel
  induction fuel with
  | zero => intro l i j; exact List.Perm.refl l
  | succ fuel ih =>
    intro l i j
    unfold partLoop
    dsimp only
    split
    · exact List.Perm.refl l
    · exact (ih _ _ _).trans (lswap_perm l _ _)

theorem partitionGo_perm {α : Type} [Inhabited α] (less : α → α → Bool)
    (l : List α) (a b pivot : Nat) : (partitionGo less l a b pivot).2.2.Perm l := by
  unfold partitionGo
  dsimp only
  split
  · exact (lswap_perm _ _ _).trans (lswap_perm l a pivot)
  · exact (lswap_perm _ _ _).trans (((partLoop_perm less a b b _ _ _).trans
      (lswap_perm _ _ _)).trans (lswap_perm l a pivot))

theorem peLoop_perm {α : Type} [Inhabited α] (less : α → α → Bool) (aPiv b : Nat) :
    ∀ (fuel : Nat) (l : List α) (i j : Nat), (peLoop less aPiv b l i j fuel).2.Perm l := by
  intro fuel
  induction fuel with
  | zero => intro l i j; exact List.Perm.refl l
  | succ fuel ih =>
    intro l i j
    unfold peLoop
    dsimp only
    split
    · exact List.Perm.refl l
    · exact (ih _ _ _).trans (lswap_perm l _ _)

theorem partitionEqualGo_perm {α : Type} [Inhabited α] (less : α → α → Bool)
    (l : List α) (a b pivot : Nat) : (partitionEqualGo less l a b pivot).2.Perm l :=
  (peLoop_perm less a b b _ (a+1) (b-1)).trans (lswap_perm l a pivot)

set_option maxHeartbeats 2000000 in
theorem pdqsortGo_perm {α : Type} [Inhabited α] (less : α → α → Bool) :
    ∀ (fuel : Nat) (l : List α) (a b limit : Nat) (wb wp : Bool),
      (pdqsortGo less l a b limit wb wp fuel).Perm l := by
  intro fuel
  induction fuel with
  | zero => intro l a b limit wb wp; exact List.Perm.refl l
  | succ fuel ih =>
    intro l a b limit wb wp
    unfold pdqsortGo
    dsimp only
    split
    · exact insertionSortGo_perm less l a b
    · split
      · exact heapSortGo_perm less l a b
      · have pL1 : (if wb = false then breakPatternsGo l a b else l).Perm l := by
          split
          · exact breakPatternsGo_perm l a b
          · exact List.Perm.refl l
        generalize hL1 : (if wb = false then breakPatternsGo l a b else l) = l1 at pL1 ⊢
        generalize hLim : (if wb = false then limit - 1 else limit) = limit1
        generalize hCP : choosePivotGo less l1 a b = cp
        generalize hPiv :
          (if cp.2 = SortedHint.decreasing then b - 1 - (cp.1 - a) else cp.1) = pivot
        have pL2 : (if cp.2 = SortedHint.decreasing then reverseRangeGo l1 a b else l1).Perm
            l := by
          split
          · exact (reverseRangeGo_perm l1 a b).trans pL1
          · exact pL1
        generalize hL2 : (if cp.2 = SortedHint.decreasing then reverseRangeGo l1 a b else l1)
          = l2 at pL2 ⊢
        have pPS : (if wb = true ∧ wp = true ∧
            (if cp.2 = SortedHint.decreasing then SortedHint.increasing else cp.2)
              = SortedHint.increasing then
              partialInsertionSortGo less l2 a b
            else (false, l2)).2.Perm l := by
          by_cases hc : wb = true ∧ wp = true ∧
            (if cp.2 = SortedHint.decreasing then SortedHint.increasing else cp.2)
              = SortedHint.increasing
          · rw [if_pos hc]; exact (partialInsertionSortGo_perm less l2 a b).trans pL2
          · rw [if_neg hc]; exact pL2
        generalize hPS : (if wb = true ∧ wp = true ∧
            (if cp.2 = SortedHint.decreasing then SortedHint.increasing else cp.2)
              = SortedHint.increasing then
              partialInsertionSortGo less l2 a b
            else (false, l2)) = ps at pPS ⊢
        by_cases h1 : ps.1 = true
        · rw [if_pos h1]; exact pPS
        · rw [if_neg h1]
          by_cases h2 : 0 < a ∧ lless less ps.2 (a-1) pivot = false
          · rw [if_pos h2]
            exact (ih _ _ _ _ _ _).trans
              ((partitionEqualGo_perm less ps.2 a b pivot).trans pPS)
          · rw [if_neg h2]
            by_cases h3 : (partitionGo less ps.2 a b pivot).1 - a
                < b - (partitionGo less ps.2 a b pivot).1
            · rw [if_pos h3]
              exact (ih _ _ _ _ _ _).trans ((ih _ _ _ _ _ _).trans
                ((partitionGo_perm less ps.2 a b pivot).trans pPS))
            · rw [if_neg h3]
              exact (ih _ _ _ _ _ _).trans ((ih _ _ _ _ _ _).trans
                ((partitionGo_perm less ps.2 a b pivot).trans pPS))

theorem sortSliceGo_perm {α : Type} [Inhabited α] (less : α → α → Bool) (l : List α) :
    (sortSliceGo less l).Perm l :=
  pdqsortGo_perm less (l.length + 1) l 0 l.length (bitsLen l.length) true true

theorem RegisterGo_perm {ι σ : Type} (t : List (OpenTab ι σ)) (e : OpenTab ι σ) :
    (RegisterGo t e).Perm (t ++ [e]) :=
  sortSliceGo_perm tabLess (t ++ [e])

theorem isortInner_id {α : Type} [Inhabited α] (less : α → α → Bool) (a b : Nat)
    (l : List α) (H : ∀ i j, i < b → j < b → lless less l i j = false) :
    ∀ j, j < b → isortInner less a l j = l := by
  intro j hj
  cases j with
  | zero => rfl
  | succ j =>
    unfold isortInner
    rw [H (j+1) j hj (Nat.lt_of_le_of_lt (Nat.le_succ j) hj)]
    simp

theorem isortLoop_id {α : Type} [Inhabited α] (less : α → α → Bool) (a b : Nat)
    (l : List α) (H : ∀ i j, i < b → j < b → lless less l i j = false) :
    ∀ fuel i, isortLoop less a b l i fuel = l := by
  intro fuel
  induction fuel with
  | zero => intro i; rfl
  | succ fuel ih =>
    intro i
    unfold isortLoop
    split
    · next h => rw [isortInner_id less a b l H i h]; exact ih (i+1)
    · rfl

theorem insertionSortGo_id {α : Type} [Inhabited α] (less : α → α → Bool)
    (l : List α) (a b : Nat) (H : ∀ i j, i < b → j < b → lless less l i j = false) :
    insertionSortGo less l a b = l :=
  isortLoop_id less a b l H b (a+1)

theorem pdqsortGo_small {α : Type} [Inhabited α] (less : α → α → Bool) (l : List α)
    (a b limit : Nat) (wb wp : Bool) (fuel : Nat) (h : b - a ≤ 12) :
    pdqsortGo less l a b limit wb wp (fuel+1) = insertionSortGo less l a b := by
  unfold pdqsortGo
  dsimp only
  rw [if_pos h]

theorem sortSliceGo_same_pri {ι σ : Type} (l : List (OpenTab ι σ)) (p : Int)
    (hp : ∀ e ∈ l, e.pri = p) (hlen : l.length ≤ 12) :
    sortSliceGo tabLess l = l := by
  unfold sortSliceGo
  rw [pdqsortGo_small tabLess l 0 l.length (bitsLen l.length) true true l.length
    (by omega)]
  apply insertionSortGo_id
  intro i j hi hj
  unfold lless tabLess
  rw [List.getD_eq_getElem l default hi, List.getD_eq_getElem l default hj,
    hp _ (List.getElem_mem hi), hp _ (List.getElem_mem hj)]
  simp

theorem foldl_RegisterGo_same_pri {ι σ : Type} (p : Int) :
    ∀ (es acc : List (OpenTab ι σ)), (∀ e ∈ es, e.pri = p) → (∀ e ∈ acc, e.pri = p) →
      acc.length + es.length ≤ 12 → es.foldl RegisterGo acc = acc ++ es := by
  intro es
  induction es with
  | nil => intro acc _ _ _; simp
  | cons e es ih =>
    intro acc hes hacc hlen
    have hreg : RegisterGo acc e = acc ++ [e] := by
      unfold RegisterGo
      apply sortSliceGo_same_pri _ p
      · intro x hx
        rcases List.mem_append.1 hx with h | h
        · exact hacc x h
        · rw [List.mem_singleton.1 h]; exact hes e (List.mem_cons_self e es)
      · simp only [List.length_append, List.length_cons, List.length_nil] at hlen ⊢
        omega
    show List.foldl RegisterGo (RegisterGo acc e) es = acc ++ e :: es
    rw [hreg, ih (acc ++ [e])
      (fun x hx => hes x (List.mem_cons_of_mem e hx))
      (fun x hx => by
        rcases List.mem_append.1 hx with h | h
        · exact hacc x h
        · rw [List.mem_singleton.1 h]; exact hes e (List.mem_cons_self e es))
      (by simp only [List.length_append, List.length_cons, List.length_nil]
          at hlen ⊢; omega)]
    simp

/-- C4 (amended): registration is append-then-`sort.Slice`, and Go's
`sort.Slice` is not stable, so insertion order among equal priorities is not
guaranteed in general.  What does hold: (1) the table after a `Register` call
is exactly the old table plus the new entry, as a permutation — no entry is
lost or duplicated; and (2) any sequence of at most 12 equal-priority
registrations leaves the dispatch table exactly in insertion order, because
`sort.Slice` runs its (stable, here no-op) insertion sort on ranges of at most
12 elements.  A 13th registration can permute equal-priority entries (see the
counterexample). -/
theorem C4_register_order_amended {ι σ : Type} :
    (∀ (t : List (OpenTab ι σ)) (e : OpenTab ι σ), (RegisterGo t e).Perm (t ++ [e])) ∧
    (∀ (es : List (OpenTab ι σ)) (p : Int), (∀ e ∈ es, e.pri = p) → es.length ≤ 12 →
      es.foldl RegisterGo [] = es) :=
  ⟨fun t e => RegisterGo_perm t e,
   fun es p hp hlen => by
    rw [foldl_RegisterGo_same_pri p es [] hp (by intro e h; exact absurd h (by simp))
      (by simpa using hlen)]
    simp⟩

/-- Probe function used by the registration example tables (never invoked by
the sort, which only inspects priorities). -/
def nullProbe : String → Except GErr String :=
  fun _ => .error (.notInFormat none)

theorem C4_register_order_amended_witness :
    [OpenTab.mk "tsv" 3 nullProbe, OpenTab.mk "csv" 3 nullProbe,
      OpenTab.mk "xlsx" 3 nullProbe].foldl RegisterGo []
      = [OpenTab.mk "tsv" 3 nullProbe, OpenTab.mk "csv" 3 nullProbe,
        OpenTab.mk "xlsx" 3 nullProbe] :=
  C4_register_order_amended.2
    [OpenTab.mk "tsv" 3 nullProbe, OpenTab.mk "csv" 3 nullProbe,
      OpenTab.mk "xlsx" 3 nullProbe] 3 (by decide) (by decide)

/-- Thirteen registrations: twelve entries at priority 1 named "a" … "l" in
insertion order, then one entry "m" at priority 0. -/
def regs13 : List (OpenTab String String) :=
  (["a","b","c","d","e","f","g","h","i","j","k","l"].map
    (fun n => OpenTab.mk n 1 nullProbe)) ++ [OpenTab.mk "m" 0 nullProbe]

/-- The dispatch table produced by the thirteen registrations of `regs13`. -/
def table13 : List (OpenTab String String) := regs13.foldl RegisterGo []

/-- C4 (counterexample): after the thirteen registrations of `regs13`, the
equal-priority entries "a" … "l" (all priority 1, registered in alphabetical
order) do NOT appear in insertion order: the 13th registration triggers the
unstable quicksort path of Go's `sort.Slice`, which leaves "g" in front of
"a", so the claim "entries registered with equal priority appear in the
dispatch table in their insertion order" is false. -/
theorem C4_counterexample :
    table13.map (fun o => (o.name, o.pri)) =
      [("m", 0), ("g", 1), ("c", 1), ("d", 1), ("e", 1), ("f", 1), ("a", 1),
       ("h", 1), ("i", 1), ("j", 1), ("k", 1), ("l", 1), ("b", 1)] ∧
    (table13.map (fun o => o.name)).indexOf "g"
      < (table13.map (fun o => o.name)).indexOf "a" :=
  ⟨by decide, by decide⟩

/-- The table obtained by registering the name "csv" twice at priority 1. -/
def doubleReg : List (OpenTab String String) :=
  RegisterGo (RegisterGo [] (OpenTab.mk "csv" 1 nullProbe))
    (OpenTab.mk "csv" 1 nullProbe)

/-- C5 (counterexample): registering the same name "csv" twice leaves TWO
entries named "csv" in the table — `Register` performs no per-name
deduplication, so registration is not idempotent per (table, name). -/
theorem C5_counterexample :
    doubleReg.map (fun o => o.name) = ["csv", "csv"] ∧ doubleReg.length = 2 :=
  ⟨by decide, by decide⟩

/-- C5 (amended): `Register` unconditionally appends: a second `Register` call
with a name already present in the table adds another entry for that name, so
the number of table entries carrying that name — each of which `Open` probes
when scanning the table — grows by exactly one. -/
theorem C5_register_appends {ι σ : Type} (t : List (OpenTab ι σ)) (e : OpenTab ι σ) :
    ((RegisterGo t e).map (fun o => o.name)).count e.name
      = ((t.map (fun o => o.name)).count e.name) + 1 := by
  rw [((RegisterGo_perm t e).map (fun o => o.name)).count_eq]
  simp

/-- Concrete dispatch table for the C1 witness: a rejecting probe at priority
1, a succeeding probe at priority 5, a never-reached probe at priority 9. -/
def c1t1 : OpenTab String String :=
  ⟨"csv", 1, fun _ => .error (.notInFormat none)⟩

/-- Succeeding probe entry for the C1 witness. -/
def c1t2 : OpenTab String String :=
  ⟨"xlsx", 5, fun fn => .ok fn⟩

/-- Unreached probe entry for the C1 witness. -/
def c1t3 : OpenTab String String :=
  ⟨"xls", 9, fun _ => .error (.other "boom")⟩

theorem C1_open_dispatch_witness :
    OpenGo [c1t1, c1t2, c1t3] "f.xlsx" = .ok "f.xlsx" ∧
      OpenTried [c1t1, c1t2, c1t3] "f.xlsx" = [c1t1] ++ [c1t2] :=
  (C1_open_dispatch [c1t1, c1t2, c1t3] "f.xlsx").2.1 [c1t1] c1t2 [c1t3] "f.xlsx"
    rfl (by decide) rfl


/-!
The simple delimited backend (`simple/simple.go`): the `simpleFile` Collection
and its `Scan`, plus the pieces of the Go standard library it calls
(`strconv.ParseInt`, `strconv.ParseFloat`, `strings.ToLower`, `filepath.Base`).
-/

/-- Kind of a Go `strconv` error (`ErrSyntax` / `ErrRange`). -/
inductive NumErrKind where
  | errSyntax
  | errRange
deriving DecidableEq, Repr

/-- Go `strconv.NumError`: the failing function, the input string, and the
error kind. -/
structure NumError where
  fn : String
  num : String
  err : NumErrKind
deriving DecidableEq, Repr

/-- Digit loop of Go `strconv.ParseUint(s, 10, 64)`.  Returns the value and
the error exactly as Go does: 0 with ErrSyntax on a non-digit (for base 10
every letter fails the `d >= base` test, so all non-digits are syntax
errors), the clamped max value with ErrRange past the 64-bit cutoffs.  Over
`Nat` the product cannot wrap, so Go's `n1 < n` wrap test is subsumed by the
`n1 > maxVal` test it accompanies. -/
def parseUintDigits (s0 : String) : List Char → Nat → Nat × Option NumError
  | [], n => (n, none)
  | c :: cs, n =>
    if '0' ≤ c ∧ c ≤ '9' then
      let d := c.toNat - '0'.toNat
      if n ≥ (2^64 - 1) / 10 + 1 then (2^64 - 1, some ⟨"ParseUint", s0, .errRange⟩)
      else
        let n1 := n * 10 + d
        if n1 > 2^64 - 1 then (2^64 - 1, some ⟨"ParseUint", s0, .errRange⟩)
        else parseUintDigits s0 cs n1
    else (0, some ⟨"ParseUint", s0, .errSyntax⟩)

/-- Go `strconv.ParseUint(s, 10, 64)` (base fixed at 10 as in simple.go, so
no base-prefix or underscore handling applies). -/
def goParseUint64 (s : String) : Nat × Option NumError :=
  if s = "" then (0, some ⟨"ParseUint", s, .errSyntax⟩)
  else parseUintDigits s s.toList 0

/-- Final clamp of Go `strconv.ParseInt`: compare the unsigned value against
`1 << 63` and negate, yielding the clamped boundary value with ErrRange when
out of range. -/
def intClamp (s : String) (neg : Bool) (un : Nat) : Int × Option NumError :=
  if neg = false ∧ un ≥ 2^63 then ((2^63 : Int) - 1, some ⟨"ParseInt", s, .errRange⟩)
  else if neg = true ∧ un > 2^63 then (-(2^63 : Int), some ⟨"ParseInt", s, .errRange⟩)
  else (if neg then -(un : Int) else (un : Int), none)

/-- Go `strconv.ParseInt(s, 10, 64)`: strip an optional sign, run `ParseUint`,
rewrite a non-range error to carry `ParseInt` and the original string, and
range-check against the signed cutoffs (a range error from `ParseUint` falls
through to the cutoff checks with the clamped value, exactly as in Go). -/
def goParseInt64 (s : String) : Int × Option NumError :=
  if s = "" then (0, some ⟨"ParseInt", s, .errSyntax⟩)
  else
    let cs := s.toList
    let neg : Bool := decide (cs.headD ' ' = '-')
    let cs1 := if cs.headD ' ' = '+' ∨ cs.headD ' ' = '-' then cs.tail else cs
    let pu := goParseUint64 (String.mk cs1)
    match pu.2 with
    | some e =>
      if e.err ≠ NumErrKind.errRange then (0, some ⟨"ParseInt", s, e.err⟩)
      else intClamp s neg pu.1
    | none => intClamp s neg pu.1

/-- A Go `float64` value as far as the claims observe it: the accepted literal
(or "0", the value Go returns alongside a syntax error).  No claim depends on
float arithmetic, so the numeric interpretation of the literal is left
uninterpreted. -/
structure GoFloat where
  lit : String
deriving DecidableEq, Repr

instance : Inhabited GoFloat := ⟨⟨"0"⟩⟩

/-- ASCII case folding (the fragment of Go's Unicode `ToLower`/case-insensitive
comparisons that the compared literals exercise — they are all ASCII). -/
def goLowerChar (c : Char) : Char :=
  if 'A' ≤ c ∧ c ≤ 'Z' then Char.ofNat (c.toNat + 32) else c

/-- Count the leading decimal digits of a character list, returning the count
and the remainder. -/
def spanDigits : List Char → Nat × List Char
  | [] => (0, [])
  | c :: cs =>
    if '0' ≤ c ∧ c ≤ '9' then
      let r := spanDigits cs
      (r.1 + 1, r.2)
    else (0, c :: cs)

/-- The special forms accepted by Go `strconv.ParseFloat`: case-insensitive
`inf`/`infinity` with optional sign, and unsigned `nan`. -/
def floatSpecialOk (cs : List Char) : Bool :=
  let l := cs.map goLowerChar
  decide (l = ['i','n','f'] ∨ l = ['i','n','f','i','n','i','t','y'] ∨
    l = ['+','i','n','f'] ∨ l = ['-','i','n','f'] ∨
    l = ['+','i','n','f','i','n','i','t','y'] ∨
    l = ['-','i','n','f','i','n','i','t','y'] ∨
    l = ['n','a','n'])

/-- Acceptance of a decimal floating-point literal by Go `strconv.ParseFloat`:
optional sign, digits with at most one dot and at least one mantissa digit,
optional signed decimal exponent.  (Go additionally accepts hexadecimal
floats and digit-separating underscores, and reports ErrRange for finite
literals that overflow; no claim exercises those forms.) -/
def floatDecimalOk (cs0 : List Char) : Bool :=
  let cs := match cs0 with
    | '+' :: r => r
    | '-' :: r => r
    | r => r
  let p1 := spanDigits cs
  let hasDot : Bool := match p1.2 with | '.' :: _ => true | _ => false
  let p2 := if hasDot then spanDigits p1.2.tail else (0, p1.2)
  let mantOk : Bool := decide (p1.1 + p2.1 > 0)
  match p2.2 with
  | [] => mantOk
  | e :: r =>
    if e = 'e' ∨ e = 'E' then
      let r1 := match r with | '+' :: rr => rr | '-' :: rr => rr | rr => rr
      let p3 := spanDigits r1
      mantOk && decide (p3.1 > 0) && decide (p3.2 = [])
    else false

/-- Go `strconv.ParseFloat(s, 64)` as the claims observe it: acceptance plus
the error value; a rejected string yields 0 (the literal "0") and a
`ParseFloat` syntax error, as in Go. -/
def goParseFloat (s : String) : GoFloat × Option NumError :=
  if floatSpecialOk s.toList ∨ floatDecimalOk s.toList then (⟨s⟩, none)
  else (⟨"0"⟩, some ⟨"ParseFloat", s, .errSyntax⟩)

/-- Go `strings.ToLower` restricted to its ASCII action (the boolean literals
compared against are ASCII). -/
def goToLowerAscii (s : String) : String :=
  String.mk (s.toList.map goLowerChar)

/-- The boolean cell parse of simple.go's Scan:
`case "1", "t", "true", "y", "yes": true; default: false`. -/
def parseBoolCell (cell : String) : Bool :=
  let lc := goToLowerAscii cell
  decide (lc = "1" ∨ lc = "t" ∨ lc = "true" ∨ lc = "y" ∨ lc = "yes")

/-- Go `filepath.Base` (Unix separator; Windows volume names don't arise):
empty path gives ".", trailing slashes are dropped, the last element is kept,
an all-slash path gives "/". -/
def filepathBase (p : String) : String :=
  if p = "" then "."
  else
    let stripped := (p.toList.reverse.dropWhile (fun c => c = '/')).reverse
    if stripped.isEmpty then "/"
    else String.mk ((stripped.reverse.takeWhile (fun c => c ≠ '/')).reverse)

/-- The errors simple.go's Scan can return: the destination-count mismatch
(`fmt.Errorf("grate/simple: expected %d Scan destinations, got %d", …)`), the
time rejection (`errors.New("grate/simple: time.Time not supported, …")`),
the sentinel `grate.ErrInvalidScanType`, and a `strconv` error passed
through. -/
inductive ScanErr where
  | countMismatch (expected got : Nat)
  | timeNotSupported
  | invalidScanType
  | numErr (e : NumError)
deriving DecidableEq, Repr

/-- Opaque stand-in for a Go `time.Time` value (the simple backend never
constructs one — it rejects time destinations). -/
structure GoTime where
  unit : Unit
deriving DecidableEq, Repr

/-- A destination pointer passed to Scan, carrying the pointee's pre-call
value.  The type cases mirror the Go type switch in simple.go (`*bool`,
`*int`, `*float64`, `*string`, `*time.Time`) plus `*int64` (named by the
Collection interface documentation in grate.go) and a catch-all for any other
pointer type — both of which land in the switch's `default`. -/
inductive GoPtr where
  | pBool (v : Bool)
  | pInt (v : Int)
  | pInt64 (v : Int)
  | pFloat64 (v : GoFloat)
  | pString (v : String)
  | pTime (v : GoTime)
  | pOther (goType : String)
deriving DecidableEq, Repr

/-- The simple backend's Source/Collection state (`simpleFile` in simple.go). -/
structure simpleFile where
  filename : String
  rows : List (List String)
  iterRow : Int
deriving DecidableEq, Repr

/-- Modelled from the spec: the simple backend's constructor (the openers are
not under src/) materializes the parsed rows with the row cursor before the
first row ("current row cursor (starts before first row; Next advances)"). -/
def simpleNew (filename : String) (rows : List (List String)) : simpleFile :=
  ⟨filename, rows, -1⟩

/-- `simpleFile.List`: the single collection, named by the file's base name. -/
def simpleFile.ListGo (t : simpleFile) : List String :=
  [filepathBase t.filename]

/-- `simpleFile.Get`: ignores the requested name and returns the file itself
as the Collection, with a nil error. -/
def simpleFile.GetGo (t : simpleFile) (name : String) : simpleFile × Option GErr :=
  (t, none)

/-- `simpleFile.Next`: `t.iterRow++; return t.iterRow < len(t.rows)`. -/
def simpleFile.NextGo (t : simpleFile) : Bool × simpleFile :=
  let t1 : simpleFile := { t with iterRow := t.iterRow + 1 }
  (decide (t1.iterRow < (t1.rows.length : Int)), t1)

/-- The current row `t.rows[t.iterRow]`.  Go panics when the cursor is out of
range; this total model returns `[]` there, and the theorems that touch the
current row carry the in-range hypotheses. -/
def simpleFile.curRow (t : simpleFile) : List String :=
  t.rows.getD t.iterRow.toNat []

/-- `simpleFile.Strings`. -/
def simpleFile.StringsGo (t : simpleFile) : List String := t.curRow

/-- `simpleFile.Formats`: "General" for every cell of the current row. -/
def simpleFile.FormatsGo (t : simpleFile) : List String :=
  t.curRow.map (fun _ => "General")

/-- `simpleFile.Types`: "blank" for empty cells, "string" otherwise. -/
def simpleFile.TypesGo (t : simpleFile) : List String :=
  t.curRow.map (fun v => if v = "" then "blank" else "string")

/-- `simpleFile.IsEmpty`. -/
def simpleFile.IsEmptyGo (t : simpleFile) : Bool :=
  decide (t.rows.length = 0)

/-- `simpleFile.Err`: always nil. -/
def simpleFile.ErrGo (_ : simpleFile) : Option ScanErr := none

/-- The destination loop of simple.go's Scan at column `i`: returns the error
(if any) and the post-call destination values.  Mirrors the Go switch:
booleans never fail; `*int` writes `int(n)` (identity on the 64-bit platforms
Go targets here) before the error check; `*float64` likewise writes the
returned value; `*string` copies the cell; `*time.Time` returns its rejection
without writing; anything else — including `*int64` — returns
ErrInvalidScanType. -/
def scanLoop (row : List String) : Nat → List GoPtr → Option ScanErr × List GoPtr
  | _, [] => (none, [])
  | i, a :: rest =>
    match a with
    | .pBool _ =>
      let w := GoPtr.pBool (parseBoolCell (row.getD i ""))
      let r := scanLoop row (i+1) rest
      (r.1, w :: r.2)
    | .pInt _ =>
      let pr := goParseInt64 (row.getD i "")
      let w := GoPtr.pInt pr.1
      match pr.2 with
      | some e => (some (.numErr e), w :: rest)
      | none =>
        let r := scanLoop row (i+1) rest
        (r.1, w :: r.2)
    | .pFloat64 _ =>
      let pr := goParseFloat (row.getD i "")
      let w := GoPtr.pFloat64 pr.1
      match pr.2 with
      | some e => (some (.numErr e), w :: rest)
      | none =>
        let r := scanLoop row (i+1) rest
        (r.1, w :: r.2)
    | .pString _ =>
      let w := GoPtr.pString (row.getD i "")
      let r := scanLoop row (i+1) rest
      (r.1, w :: r.2)
    | .pTime v => (some .timeNotSupported, GoPtr.pTime v :: rest)
    | .pInt64 v => (some .invalidScanType, GoPtr.pInt64 v :: rest)
    | .pOther ty => (some .invalidScanType, GoPtr.pOther ty :: rest)

/-- `simpleFile.Scan` from simple.go: reject a destination-count mismatch
before any write, then run the destination loop over the current row. -/
def simpleFile.ScanGo (t : simpleFile) (args : List GoPtr) :
    Option ScanErr × List GoPtr :=
  let row := t.curRow
  if row.length ≠ args.length then
    (some (.countMismatch row.length args.length), args)
  else scanLoop row 0 args


/-!
The xlsx backend (`Document` in the unnamed xlsx source file): `List`, `Get`,
and the reader lifecycle of `OpenReader`.  The cfb backend (`Document.Open`
over the directory entries).
-/

/-- Load state of an xlsx sheet's `err` field: the `errNotLoaded` sentinel, no
error, or a recorded error. -/
inductive SheetErr where
  | notLoaded
  | noErr
  | failed (e : GErr)
deriving DecidableEq, Repr

/-- One sheet of an xlsx `Document`: its name, its `err` state, an opaque
handle standing for the `wrapped` commonxl sheet, and — since `parseSheet`'s
body is not under src/ — the outcome `parseSheet()` would produce
(`noErr` for nil, `failed e` otherwise). -/
structure XSheet where
  name : String
  err : SheetErr
  wrapped : Nat
  parseResult : SheetErr
deriving DecidableEq, Repr

/-- The sheet list of an xlsx `Document` (the other `Document` fields play no
role in `List`/`Get`). -/
structure XDocument where
  sheets : List XSheet
deriving DecidableEq, Repr

/-- xlsx `(*Document).List`: the sheet names in workbook order. -/
def XDocument.ListGo (d : XDocument) : List String :=
  d.sheets.map (fun s => s.name)

/-- Loop of xlsx `(*Document).Get`: find the first sheet with the requested
name, lazily parse it if still unloaded, and return its wrapped collection
(an opaque handle here) with the recorded error; an unmatched name yields
`errors.New("xlsx: sheet not found")`. -/
def xlsxGetLoop (sheetName : String) : List XSheet → Option Nat × Option GErr
  | [] => (none, some (.other "xlsx: sheet not found"))
  | s :: rest =>
    if s.name = sheetName then
      let errNow := if s.err = SheetErr.notLoaded then s.parseResult else s.err
      (some s.wrapped, match errNow with | .failed e => some e | _ => none)
    else xlsxGetLoop sheetName rest

/-- xlsx `(*Document).Get`. -/
def XDocument.GetGo (d : XDocument) (sheetName : String) : Option Nat × Option GErr :=
  xlsxGetLoop sheetName d.sheets

/-- Object type of a cfb directory entry (`typeStream` is the one `Open` and
`List` select on). -/
inductive CfbObjectType where
  | unallocated
  | storage
  | stream
  | rootStorage
deriving DecidableEq, Repr

/-- A cfb directory entry as `Open` consumes it: the decoded name (the
`String()` method decodes the UTF-16LE name; the decoder is not under src/),
the object type, the starting sector, and the 64-bit declared stream size. -/
structure CfbDirEntry where
  name : String
  objectType : CfbObjectType
  startingSectorLocation : Nat
  streamSize : Nat
deriving DecidableEq, Repr

/-- The cfb header field consulted by `Open` (`uint32`, typically 4096). -/
structure CfbHeader where
  miniStreamCutoffSize : Nat
deriving DecidableEq, Repr

/-- A cfb `Document` as `Open` consumes it. -/
structure CfbDocument where
  header : CfbHeader
  dir : List CfbDirEntry
deriving DecidableEq, Repr

/-- Which chain a successful cfb `Open` reads the stream through
(`getMiniStreamReader` / `getStreamReader`, bodies not under src/), with the
starting sector and declared size the source passes to them. -/
inductive CfbStreamReader where
  | mini (start size : Nat)
  | fat (start size : Nat)
deriving DecidableEq, Repr

/-- The error of cfb `Open`: `fmt.Errorf("cfb: stream '%s' not found", name)`,
kept structured. -/
inductive CfbOpenErr where
  | streamNotFound (name : String)
deriving DecidableEq, Repr

/-- Loop of cfb `(*Document).Open` over the directory entries: on the first
entry matching the name with object type stream, take the miniFAT reader when
the declared size is below the cutoff, else the FAT reader when the size is
nonzero; otherwise — including a matching zero-size entry not below the
cutoff — keep scanning, and fail with "stream not found" at the end. -/
def cfbOpenLoop (cutoff : Nat) (name : String) :
    List CfbDirEntry → Except CfbOpenErr CfbStreamReader
  | [] => .error (.streamNotFound name)
  | e :: rest =>
    if e.name = name ∧ e.objectType = .stream then
      if e.streamSize < cutoff then
        .ok (.mini e.startingSectorLocation e.streamSize)
      else if e.streamSize ≠ 0 then
        .ok (.fat e.startingSectorLocation e.streamSize)
      else cfbOpenLoop cutoff name rest
    else cfbOpenLoop cutoff name rest

/-- cfb `(*Document).Open`. -/
def CfbDocument.OpenGo (d : CfbDocument) (name : String) :
    Except CfbOpenErr CfbStreamReader :=
  cfbOpenLoop d.header.miniStreamCutoffSize name d.dir

/-- An `io.ReadCloser` handed to the xlsx `OpenReader`: its full contents, a
configurable error the reader reports after its contents are drained (none =
clean EOF) and a configurable Close error, plus the observable lifecycle
state — how many bytes have been consumed and whether Close was called. -/
structure GoReader where
  content : List Nat
  readErr : Option GErr
  closeErr : Option GErr
  pos : Nat
  closed : Bool
deriving DecidableEq, Repr

/-- Go `io.ReadAll(reader)`: drain the reader to its end, then report either
the bytes or the reader's error. -/
def goReadAll (r : GoReader) : Except GErr (List Nat) × GoReader :=
  let r1 : GoReader := { r with pos := r.content.length }
  match r.readErr with
  | some e => (.error e, r1)
  | none => (.ok r.content, r1)

/-- `reader.Close()`: marks the reader closed and reports its close error. -/
def goClose (r : GoReader) : Option GErr × GoReader :=
  (r.closeErr, { r with closed := true })

/-- xlsx `OpenReader` from the unnamed xlsx source file: `io.ReadAll` the
caller's reader, `Close` it, open the buffered bytes as a ZIP (a failure is
wrapped as NotInFormat), then initialize the document.  `zipNew` stands for
`zip.NewReader` over the buffered bytes and `initDoc` for `(*Document).init`
(their internals don't touch the reader); on an init failure the `d.Close()`
call is a no-op on the reader because the document's closer field is set to
nil — the reader was already closed. -/
def xlsxOpenReader {ζ τ : Type} (zipNew : List Nat → Except String ζ)
    (initDoc : ζ → Except GErr τ) (r : GoReader) : Except GErr τ × GoReader :=
  match goReadAll r with
  | (.error e, r1) => (.error e, r1)
  | (.ok data, r1) =>
    match goClose r1 with
    | (some e, r2) => (.error e, r2)
    | (none, r2) =>
      match zipNew data with
      | .error e => (.error (WrapNotInFormat e), r2)
      | .ok z =>
        match initDoc z with
        | .error e => (.error e, r2)
        | .ok src => (.ok src, r2)


/-- The destination types the simple backend's Scan accepts without a type
error: `*bool`, `*int`, `*float64`, `*string`. -/
def isSimpleSupported : GoPtr → Bool
  | .pBool _ => true
  | .pInt _ => true
  | .pFloat64 _ => true
  | .pString _ => true
  | _ => false

theorem scanLoop_supported_no_type_err (row : List String) :
    ∀ (args : List GoPtr) (i : Nat), (∀ a ∈ args, isSimpleSupported a = true) →
      (scanLoop row i args).1 ≠ some ScanErr.invalidScanType ∧
      (scanLoop row i args).1 ≠ some ScanErr.timeNotSupported := by
  intro args
  induction args with
  | nil =>
    intro i _
    exact ⟨by simp [scanLoop], by simp [scanLoop]⟩
  | cons a rest ih =>
    intro i hall
    have ha := hall a (List.mem_cons_self a rest)
    have hrest := ih (i+1) (fun x hx => hall x (List.mem_cons_of_mem a hx))
    cases a with
    | pBool v =>
      unfold scanLoop
      dsimp only
      exact hrest
    | pInt v =>
      unfold scanLoop
      dsimp only
      split
      · exact ⟨by simp, by simp⟩
      · exact hrest
    | pFloat64 v =>
      unfold scanLoop
      dsimp only
      split
      · exact ⟨by simp, by simp⟩
      · exact hrest
    | pString v =>
      unfold scanLoop
      dsimp only
      exact hrest
    | pTime v => simp [isSimpleSupported] at ha
    | pInt64 v => simp [isSimpleSupported] at ha
    | pOther ty => simp [isSimpleSupported] at ha

/-- A one-row simple file whose current row is ["5"]. -/
def sf5 : simpleFile := ⟨"data.csv", [["5"]], 0⟩

/-- C2 (counterexample): against "Scan accepts destination pointers of exactly
the types *bool, *int64, *float64, *string, and *time.Time", the simple
backend's Scan (the only Scan under src/) rejects `*int64` with
ErrInvalidScanType, rejects `*time.Time` with a distinct "time.Time not
supported" error, and instead accepts `*int`. -/
theorem C2_counterexample :
    sf5.ScanGo [GoPtr.pInt64 0] = (some .invalidScanType, [GoPtr.pInt64 0]) ∧
    sf5.ScanGo [GoPtr.pTime ⟨()⟩] = (some .timeNotSupported, [GoPtr.pTime ⟨()⟩]) ∧
    sf5.ScanGo [GoPtr.pInt 0] = (none, [GoPtr.pInt 5]) :=
  ⟨by decide, by decide, by decide⟩

/-- C2 (amended): the simple backend's Scan accepts exactly `*bool`, `*int`,
`*float64`, and `*string` — a call whose destinations are all of these types
never returns ErrInvalidScanType or the time rejection; a `*time.Time`
destination is recognized but rejected with the "time.Time not supported"
error; any other destination type — including the `*int64` named by the
Collection interface documentation — yields ErrInvalidScanType. -/
theorem C2_scan_types_amended :
    (∀ (t : simpleFile) (args : List GoPtr),
      (∀ a ∈ args, isSimpleSupported a = true) →
      (t.ScanGo args).1 ≠ some ScanErr.invalidScanType ∧
      (t.ScanGo args).1 ≠ some ScanErr.timeNotSupported) ∧
    (∀ (t : simpleFile) (v : GoTime) (rest : List GoPtr),
      t.curRow.length = rest.length + 1 →
      t.ScanGo (GoPtr.pTime v :: rest)
        = (some .timeNotSupported, GoPtr.pTime v :: rest)) ∧
    (∀ (t : simpleFile) (v : Int) (rest : List GoPtr),
      t.curRow.length = rest.length + 1 →
      t.ScanGo (GoPtr.pInt64 v :: rest)
        = (some .invalidScanType, GoPtr.pInt64 v :: rest)) ∧
    (∀ (t : simpleFile) (ty : String) (rest : List GoPtr),
      t.curRow.length = rest.length + 1 →
      t.ScanGo (GoPtr.pOther ty :: rest)
        = (some .invalidScanType, GoPtr.pOther ty :: rest)) := by
  refine ⟨?_, ?_, ?_, ?_⟩
  · intro t args hall
    unfold simpleFile.ScanGo
    dsimp only
    split
    · exact ⟨by simp, by simp⟩
    · exact scanLoop_supported_no_type_err t.curRow args 0 hall
  · intro t v rest h
    unfold simpleFile.ScanGo
    dsimp only
    rw [if_neg (by simp [List.length_cons, h])]
    rfl
  · intro t v rest h
    unfold simpleFile.ScanGo
    dsimp only
    rw [if_neg (by simp [List.length_cons, h])]
    rfl
  · intro t ty rest h
    unfold simpleFile.ScanGo
    dsimp only
    rw [if_neg (by simp [List.length_cons, h])]
    rfl

theorem C2_scan_types_amended_witness :
    ((sf5.ScanGo [GoPtr.pBool false]).1 ≠ some ScanErr.invalidScanType ∧
     (sf5.ScanGo [GoPtr.pBool false]).1 ≠ some ScanErr.timeNotSupported) ∧
    sf5.ScanGo [GoPtr.pInt64 3] = (some .invalidScanType, [GoPtr.pInt64 3]) :=
  ⟨C2_scan_types_amended.1 sf5 [GoPtr.pBool false] (by decide),
   C2_scan_types_amended.2.2.1 sf5 3 [] (by decide)⟩

theorem intClamp_num (s : String) (neg : Bool) (un : Nat) (e : NumError)
    (h : (intClamp s neg un).2 = some e) : e.num = s := by
  unfold intClamp at h
  split at h
  · simp only [Option.some.injEq] at h
    rw [← h]
  · split at h
    · simp only [Option.some.injEq] at h
      rw [← h]
    · simp at h

theorem goParseInt64_num (s : String) (e : NumError)
    (h : (goParseInt64 s).2 = some e) : e.num = s := by
  unfold goParseInt64 at h
  split at h
  · simp only [Option.some.injEq] at h
    rw [← h]
  · dsimp only at h
    split at h
    · split at h
      · simp only [Option.some.injEq] at h
        rw [← h]
      · exact intClamp_num _ _ _ _ h
    · exact intClamp_num _ _ _ _ h

theorem goParseFloat_num (s : String) (e : NumError)
    (h : (goParseFloat s).2 = some e) : e.num = s := by
  unfold goParseFloat at h
  split at h
  · simp at h
  · simp only [Option.some.injEq] at h
    rw [← h]

theorem scanLoop_numErr_cell (row : List String) :
    ∀ (args : List GoPtr) (i : Nat) (e : NumError),
      (scanLoop row i args).1 = some (.numErr e) →
      ∃ k, i ≤ k ∧ k < i + args.length ∧ e.num = row.getD k "" := by
  intro args
  induction args with
  | nil => intro i e h; simp [scanLoop] at h
  | cons a rest ih =>
    intro i e h
    cases a with
    | pBool v =>
      unfold scanLoop at h
      dsimp only at h
      obtain ⟨k, hk1, hk2, hk3⟩ := ih (i+1) e h
      exact ⟨k, by omega, by simp only [List.length_cons]; omega, hk3⟩
    | pInt v =>
      unfold scanLoop at h
      dsimp only at h
      split at h
      · next e' heq =>
        simp only [Option.some.injEq, ScanErr.numErr.injEq] at h
        refine ⟨i, Nat.le_refl i, by simp only [List.length_cons]; omega, ?_⟩
        rw [← h]
        exact goParseInt64_num _ _ heq
      · obtain ⟨k, hk1, hk2, hk3⟩ := ih (i+1) e h
        exact ⟨k, by omega, by simp only [List.length_cons]; omega, hk3⟩
    | pFloat64 v =>
      unfold scanLoop at h
      dsimp only at h
      split at h
      · next e' heq =>
        simp only [Option.some.injEq, ScanErr.numErr.injEq] at h
        refine ⟨i, Nat.le_refl i, by simp only [List.length_cons]; omega, ?_⟩
        rw [← h]
        exact goParseFloat_num _ _ heq
      · obtain ⟨k, hk1, hk2, hk3⟩ := ih (i+1) e h
        exact ⟨k, by omega, by simp only [List.length_cons]; omega, hk3⟩
    | pString v =>
      unfold scanLoop at h
      dsimp only at h
      obtain ⟨k, hk1, hk2, hk3⟩ := ih (i+1) e h
      exact ⟨k, by omega, by simp only [List.length_cons]; omega, hk3⟩
    | pTime v => simp [scanLoop] at h
    | pInt64 v => simp [scanLoop] at h
    | pOther ty => simp [scanLoop] at h

/-- A simple file failing the integer parse at column 0. -/
def sfA : simpleFile := ⟨"a.csv", [["", "x"]], 0⟩

/-- A simple file failing the integer parse at column 1. -/
def sfB : simpleFile := ⟨"b.csv", [["y", ""]], 0⟩

/-- C6 (counterexample): two Scans that fail at DIFFERENT columns (0 in `sfA`,
1 in `sfB`) return EQUAL error values — the strconv error carries only the
function name, the offending cell text, and the error kind, so the error Scan
returns does not carry the failing column's index. -/
theorem C6_counterexample :
    (sfA.ScanGo [GoPtr.pInt 0, GoPtr.pString ""]).1
        = (sfB.ScanGo [GoPtr.pString "", GoPtr.pInt 0]).1 ∧
    (sfA.ScanGo [GoPtr.pInt 0, GoPtr.pString ""]).1
        = some (ScanErr.numErr ⟨"ParseInt", "", NumErrKind.errSyntax⟩) :=
  ⟨by decide, by decide⟩

/-- C6 (amended): a cell's numeric parse failure surfaces through Scan's
return value as the strconv error, which carries the failing CELL's content
(not the column's index), while the Collection's Err() is always nil — the
iterator is untouched by Scan, which only writes through the destination
pointers. -/
theorem C6_scan_parse_error_amended :
    (∀ t : simpleFile, t.ErrGo = none) ∧
    (∀ (t : simpleFile) (args : List GoPtr) (e : NumError),
      (t.ScanGo args).1 = some (.numErr e) →
      ∃ k, k < args.length ∧ e.num = t.curRow.getD k "") := by
  refine ⟨fun t => rfl, ?_⟩
  intro t args e h
  unfold simpleFile.ScanGo at h
  dsimp only at h
  split at h
  · simp at h
  · obtain ⟨k, hk1, hk2, hk3⟩ := scanLoop_numErr_cell t.curRow args 0 e h
    exact ⟨k, by omega, hk3⟩

theorem C6_scan_parse_error_amended_witness :
    sf5.ErrGo = none ∧
    ∃ k, k < 2 ∧
      (NumError.mk "ParseInt" "" NumErrKind.errSyntax).num = sfA.curRow.getD k "" :=
  ⟨C6_scan_parse_error_amended.1 sf5,
   C6_scan_parse_error_amended.2 sfA [GoPtr.pInt 0, GoPtr.pString ""]
     ⟨"ParseInt", "", NumErrKind.errSyntax⟩ (by decide)⟩

/-- C9: for the simple backend, whenever Next reports that a row became
current, Strings, Types, and Formats of the resulting state return lists of
equal length (all three are derived cell-by-cell from the current row). -/
theorem C9_row_lengths_equal (t u : simpleFile) (h : t.NextGo = (true, u)) :
    u.StringsGo.length = u.TypesGo.length ∧
    u.TypesGo.length = u.FormatsGo.length := by
  constructor
  · simp [simpleFile.StringsGo, simpleFile.TypesGo]
  · simp [simpleFile.TypesGo, simpleFile.FormatsGo]

/-- A three-column simple file just before its first row. -/
def sfW : simpleFile := simpleNew "w.csv" [["a", "", "c"]]

theorem C9_row_lengths_equal_witness :
    (⟨"w.csv", [["a", "", "c"]], 0⟩ : simpleFile).StringsGo.length
        = (⟨"w.csv", [["a", "", "c"]], 0⟩ : simpleFile).TypesGo.length ∧
    (⟨"w.csv", [["a", "", "c"]], 0⟩ : simpleFile).TypesGo.length
        = (⟨"w.csv", [["a", "", "c"]], 0⟩ : simpleFile).FormatsGo.length :=
  C9_row_lengths_equal sfW ⟨"w.csv", [["a", "", "c"]], 0⟩ (by decide)

/-- C10: when the number of Scan destinations differs from the number of cells
in the current row, the simple backend's Scan returns the count-mismatch error
and leaves every destination unchanged — the length check precedes any write
through the destination pointers. -/
theorem C10_scan_count_mismatch (t : simpleFile) (args : List GoPtr)
    (h0 : 0 ≤ t.iterRow) (h1 : t.iterRow < (t.rows.length : Int))
    (h : t.curRow.length ≠ args.length) :
    t.ScanGo args = (some (.countMismatch t.curRow.length args.length), args) := by
  unfold simpleFile.ScanGo
  dsimp only
  rw [if_pos h]

theorem C10_scan_count_mismatch_witness :
    sf5.ScanGo [GoPtr.pString "keep", GoPtr.pInt 9]
      = (some (.countMismatch 1 2), [GoPtr.pString "keep", GoPtr.pInt 9]) :=
  C10_scan_count_mismatch sf5 [GoPtr.pString "keep", GoPtr.pInt 9]
    (by decide) (by decide) (by decide)

theorem xlsxGetLoop_not_found (sheetName : String) :
    ∀ sheets : List XSheet, (∀ s ∈ sheets, s.name ≠ sheetName) →
      xlsxGetLoop sheetName sheets = (none, some (.other "xlsx: sheet not found")) := by
  intro sheets
  induction sheets with
  | nil => intro _; rfl
  | cons s rest ih =>
    intro h
    unfold xlsxGetLoop
    rw [if_neg (h s (List.mem_cons_self s rest))]
    exact ih (fun x hx => h x (List.mem_cons_of_mem s hx))

/-- C3 (amended): the xlsx Source honors the contract — Get with a name not
among List()'s names returns no collection and the "xlsx: sheet not found"
error — but the simple backend's Get ignores its argument and returns its
single collection with a nil error for ANY name, listed or not. -/
theorem C3_get_unknown_amended :
    (∀ (d : XDocument) (n : String), n ∉ d.ListGo →
      d.GetGo n = (none, some (.other "xlsx: sheet not found"))) ∧
    (∀ (t : simpleFile) (n : String), t.GetGo n = (t, none)) := by
  constructor
  · intro d n hn
    unfold XDocument.GetGo
    apply xlsxGetLoop_not_found
    intro s hs heq
    exact hn (heq ▸ List.mem_map_of_mem (fun x => x.name) hs)
  · intro t n
    rfl

/-- An xlsx document with a single sheet named "Sheet1". -/
def xdoc1 : XDocument := ⟨[⟨"Sheet1", .notLoaded, 0, .noErr⟩]⟩

theorem C3_get_unknown_amended_witness :
    xdoc1.GetGo "Nope" = (none, some (.other "xlsx: sheet not found")) ∧
    sf5.GetGo "Nope" = (sf5, none) :=
  ⟨C3_get_unknown_amended.1 xdoc1 "Nope" (by decide),
   C3_get_unknown_amended.2 sf5 "Nope"⟩

/-- The simple file used by the C3 counterexample. -/
def sfC : simpleFile := simpleNew "data.csv" [["x"]]

/-- C3 (counterexample): for the simple backend — a Source — Get with the name
"missing", which is NOT among List()'s names, returns the collection itself
with a nil error instead of a "sheet not found" error, so the claim fails for
this Source. -/
theorem C3_counterexample :
    sfC.ListGo = ["data.csv"] ∧ "missing" ∉ sfC.ListGo ∧
    sfC.GetGo "missing" = (sfC, none) :=
  ⟨by decide, by decide, rfl⟩

theorem cfbOpenLoop_found (cutoff : Nat) (hc : 0 < cutoff) (name : String) :
    ∀ (dir : List CfbDirEntry) (e : CfbDirEntry),
      dir.find? (fun x => decide (x.name = name ∧ x.objectType = .stream)) = some e →
      cfbOpenLoop cutoff name dir =
        .ok (if e.streamSize < cutoff then
              .mini e.startingSectorLocation e.streamSize
            else .fat e.startingSectorLocation e.streamSize) := by
  intro dir
  induction dir with
  | nil => intro e h; simp at h
  | cons d rest ih =>
    intro e h
    by_cases hd : d.name = name ∧ d.objectType = .stream
    · rw [List.find?_cons_of_pos _ (by simpa using hd)] at h
      simp only [Option.some.injEq] at h
      subst h
      unfold cfbOpenLoop
      rw [if_pos hd]
      by_cases hsz : d.streamSize < cutoff
      · rw [if_pos hsz, if_pos hsz]
      · rw [if_neg hsz, if_neg hsz, if_pos (by omega)]
    · rw [List.find?_cons_of_neg _ (by simpa using hd)] at h
      unfold cfbOpenLoop
      rw [if_neg hd]
      exact ih e h

theorem cfbOpenLoop_not_found (cutoff : Nat) (name : String) :
    ∀ dir : List CfbDirEntry,
      dir.find? (fun x => decide (x.name = name ∧ x.objectType = .stream)) = none →
      cfbOpenLoop cutoff name dir = .error (.streamNotFound name) := by
  intro dir
  induction dir with
  | nil => intro _; rfl
  | cons d rest ih =>
    intro h
    by_cases hd : d.name = name ∧ d.objectType = .stream
    · rw [List.find?_cons_of_pos _ (by simpa using hd)] at h
      simp at h
    · rw [List.find?_cons_of_neg _ (by simpa using hd)] at h
      unfold cfbOpenLoop
      rw [if_neg hd]
      exact ih h

/-- C7 (amended): with a positive mini-stream cutoff (as in every real CFB
header, where the field is 4096), cfb Open reads the first matching stream
entry through the miniFAT chain when its declared size is strictly below the
cutoff and through the FAT chain otherwise, and a name with no matching
stream entry yields the "stream not found" error.  When the header's cutoff
is zero, a zero-size stream additionally falls through to "stream not found"
(see the counterexample), which is what forces the positivity hypothesis. -/
theorem C7_cfb_open_amended (d : CfbDocument) (name : String)
    (hc : 0 < d.header.miniStreamCutoffSize) :
    (∀ e, d.dir.find? (fun x => decide (x.name = name ∧ x.objectType = .stream))
        = some e →
      d.OpenGo name = .ok (if e.streamSize < d.header.miniStreamCutoffSize then
          .mini e.startingSectorLocation e.streamSize
        else .fat e.startingSectorLocation e.streamSize)) ∧
    (d.dir.find? (fun x => decide (x.name = name ∧ x.objectType = .stream)) = none →
      d.OpenGo name = .error (.streamNotFound name)) :=
  ⟨fun e h => cfbOpenLoop_found d.header.miniStreamCutoffSize hc name d.dir e h,
   fun h => cfbOpenLoop_not_found d.header.miniStreamCutoffSize name d.dir h⟩

/-- A CFB document with the standard 4096 cutoff, one small stream "Workbook"
(mini path), one large stream "Big" (FAT path), and a storage entry. -/
def cfbDoc : CfbDocument :=
  ⟨⟨4096⟩, [⟨"Root", .rootStorage, 1, 0⟩, ⟨"Workbook", .stream, 5, 100⟩,
    ⟨"Big", .stream, 9, 70000⟩]⟩

theorem C7_cfb_open_amended_witness :
    cfbDoc.OpenGo "Workbook" = .ok (.mini 5 100) ∧
    cfbDoc.OpenGo "Big" = .ok (.fat 9 70000) ∧
    cfbDoc.OpenGo "Absent" = .error (.streamNotFound "Absent") :=
  ⟨(C7_cfb_open_amended cfbDoc "Workbook" (by decide)).1
      ⟨"Workbook", .stream, 5, 100⟩ (by decide),
   (C7_cfb_open_amended cfbDoc "Big" (by decide)).1
      ⟨"Big", .stream, 9, 70000⟩ (by decide),
   (C7_cfb_open_amended cfbDoc "Absent" (by decide)).2 (by decide)⟩

/-- A CFB document whose header declares a zero mini-stream cutoff, holding a
zero-size stream named "s". -/
def cfbZero : CfbDocument := ⟨⟨0⟩, [⟨"s", .stream, 7, 0⟩]⟩

/-- C7 (counterexample): "s" names a stream entry of `cfbZero` whose size (0)
is not below the cutoff (0), so by the claim Open should read it through the
FAT chain; the code instead falls through both reader branches and reports
"stream not found". -/
theorem C7_counterexample :
    cfbZero.OpenGo "s" = .error (.streamNotFound "s") ∧
    ∃ e, e ∈ cfbZero.dir ∧ e.name = "s" ∧ e.objectType = .stream ∧
      ¬ e.streamSize < cfbZero.header.miniStreamCutoffSize :=
  ⟨rfl, ⟨⟨"s", .stream, 7, 0⟩, by decide, rfl, rfl, by decide⟩⟩

/-- C8: the xlsx OpenReader fully drains and closes the caller's reader before
returning: for a reader whose Read and Close succeed, the final reader state
is fully consumed and closed on every outcome — in particular on the success
path and on the rejection path where the buffered bytes are not a valid ZIP
archive, which surfaces as the zip error wrapped as NotInFormat. -/
theorem C8_reader_drained_closed {ζ τ : Type} (zipNew : List Nat → Except String ζ)
    (initDoc : ζ → Except GErr τ) (r : GoReader)
    (hr : r.readErr = none) (hcl : r.closeErr = none) :
    (xlsxOpenReader zipNew initDoc r).2.pos = r.content.length ∧
    (xlsxOpenReader zipNew initDoc r).2.closed = true ∧
    (∀ e, zipNew r.content = .error e →
      (xlsxOpenReader zipNew initDoc r).1 = .error (WrapNotInFormat e)) ∧
    (∀ z s, zipNew r.content = .ok z → initDoc z = .ok s →
      (xlsxOpenReader zipNew initDoc r).1 = .ok s) := by
  unfold xlsxOpenReader goReadAll goClose
  rw [hr, hcl]
  dsimp only
  cases hz : zipNew r.content with
  | error e =>
    refine ⟨rfl, rfl, fun e2 he2 => ?_, fun z s hz2 _ => ?_⟩
    · injection he2 with h2
      rw [← h2]
    · exact absurd hz2 (by simp)
  | ok z =>
    dsimp only
    cases hi : initDoc z with
    | error e =>
      refine ⟨rfl, rfl, fun e2 he2 => ?_, fun z2 s hz2 hi2 => ?_⟩
      · exact absurd he2 (by simp)
      · injection hz2 with h2
        rw [← h2, hi] at hi2
        exact absurd hi2 (by simp)
    | ok src =>
      refine ⟨rfl, rfl, fun e2 he2 => ?_, fun z2 s hz2 hi2 => ?_⟩
      · exact absurd he2 (by simp)
      · injection hz2 with h2
        rw [← h2, hi] at hi2
        injection hi2 with h3
        rw [← h3]

/-- Zip opener for the C8 witness: accepts only the bytes [80, 75]. -/
def zwProbe : List Nat → Except String Nat :=
  fun data => if data = [80, 75] then .ok 1 else .error "zip: not a valid zip file"

/-- Document initializer for the C8 witness. -/
def ziProbe : Nat → Except GErr Nat :=
  fun _ => .ok 7

/-- A clean reader holding three bytes that are not a ZIP archive. -/
def rdr3 : GoReader := ⟨[9, 9, 9], none, none, 0, false⟩

/-- A clean reader holding the two bytes the witness zip opener accepts. -/
def rdr2 : GoReader := ⟨[80, 75], none, none, 0, false⟩

theorem C8_reader_drained_closed_witness :
    ((xlsxOpenReader zwProbe ziProbe rdr3).2.pos = 3 ∧
     (xlsxOpenReader zwProbe ziProbe rdr3).2.closed = true ∧
     (xlsxOpenReader zwProbe ziProbe rdr3).1
        = .error (WrapNotInFormat "zip: not a valid zip file")) ∧
    ((xlsxOpenReader zwProbe ziProbe rdr2).2.pos = 2 ∧
     (xlsxOpenReader zwProbe ziProbe rdr2).2.closed = true ∧
     (xlsxOpenReader zwProbe ziProbe rdr2).1 = .ok 7) :=
  ⟨⟨(C8_reader_drained_closed zwProbe ziProbe rdr3 rfl rfl).1,
    (C8_reader_drained_closed zwProbe ziProbe rdr3 rfl rfl).2.1,
    (C8_reader_drained_closed zwProbe ziProbe rdr3 rfl rfl).2.2.1 _ rfl⟩,
   ⟨(C8_reader_drained_closed zwProbe ziProbe rdr2 rfl rfl).1,
    (C8_reader_drained_closed zwProbe ziProbe rdr2 rfl rfl).2.1,
    (C8_reader_drained_closed zwProbe ziProbe rdr2 rfl rfl).2.2.2 1 7 rfl rfl⟩⟩

end GrateSpec
